import Mathlib

/-!
Verification of the room timeline synchronization and decryption engine of
hydrogen-web (`src/matrix/room/BaseRoom.js`).

The relevant operations are shallow-embedded as Lean functions:

* `decryptRun` models the asynchronous body of `_decryptEntries` together with
  the `DecryptionRequest` cancellation protocol as a deterministic function
  from an environment (which suspension point the cancel lands on, whether the
  write or the sender verification throws, whether a live timeline is open)
  to the trace of observable actions the run performs.
* `fillGap` models `BaseRoom.fillGap` the same way.
* `notifyRoomKey`, `eventIdsToEntries`, `getAdditionalTimelineRetryEntries`
  and `getSyncRetryDecryptEntries` are embedded as list programs; entry
  object identity is made explicit through an `addr` field so that claims
  about cloning and aliasing can be stated.
* `openTimelineStart`/`openTimelineRun` model `BaseRoom.openTimeline`.
* `iterateResponseStateEvents` is embedded directly, with the callback
  abstracted as a state-transformer.
-/

namespace Hydrogen

/-- The object-store names used by `BaseRoom` (`this._storage.storeNames`). -/
inductive StoreName where
  | timelineEvents
  | timelineFragments
  | pendingEvents
  | inboundGroupSessions
  | groupSessionDecryptions
  | deviceIdentities
deriving DecidableEq, Repr, Fintype

/-- The suspension point of the `_decryptEntries` body during whose `await`
the request's `dispose()` is invoked, if any.  Single-threaded cooperative
scheduling means a cancel can only land at one of these points.  If the named
point does not exist in a particular run (`duringReadTxn` when the caller
supplied `inboundSessionTxn`), no cancellation occurs in that run. -/
inductive CancelPoint where
  | duringReadTxn
  | duringPrepare
  | duringDecrypt
  | duringWriteTxnOpen
  | duringWrite
  | duringComplete
  | never
deriving DecidableEq, Repr, Fintype

/-- Environment of one `_decryptEntries` run: everything outside the function
that determines its control flow. -/
structure DecryptEnv where
  /-- whether the caller passed a non-null `inboundSessionTxn` -/
  txnProvided : Bool
  /-- value of `this._isTimelineOpen` when the write step is reached
  (read at BaseRoom.js:140, immediately before opening the write txn) -/
  timelineOpen : Bool
  /-- whether `this._observedEvents` is non-null at the end of the run -/
  observedEventsPresent : Bool
  /-- whether `changes.write(writeTxn, log)` throws -/
  writeThrows : Bool
  /-- whether `decryption.verifySenders(writeTxn)` throws -/
  verifyThrows : Bool
  /-- where the cancel (dispose) lands, if anywhere -/
  cancelAt : CancelPoint
deriving DecidableEq, Repr, Fintype

/-- Observable actions of a `_decryptEntries` run, in program order. -/
inductive DecAction where
  /-- `await this._storage.readTxn([inboundGroupSessions])` (BaseRoom.js:128) -/
  | acquireReadTxn
  /-- one of the three `if (r.cancelled) return;` checks, recording the value
  of the cancelled flag it observed (BaseRoom.js:130,135,138) -/
  | checkCancelled (cancelled : Bool)
  /-- `entries.filter(...).map(...)` (BaseRoom.js:131-133) -/
  | filterEncryptedEvents
  /-- `await this._roomEncryption.prepareDecryptAll(...)` (BaseRoom.js:134) -/
  | prepareDecryptAll
  /-- `this.preparation.dispose()` run by `DecryptionRequest.dispose`
  (BaseRoom.js:487-489) -/
  | disposePreparation
  /-- `await r.preparation.decrypt()` (BaseRoom.js:136) -/
  | executePlan
  /-- `await this._storage.readWriteTxn(stores)` (BaseRoom.js:145) -/
  | openWriteTxn (stores : List StoreName)
  /-- `await changes.write(writeTxn, log)` (BaseRoom.js:148) -/
  | writeChanges
  /-- `await decryption.verifySenders(writeTxn)` (BaseRoom.js:150) -/
  | verifySenders
  /-- `writeTxn.abort()` (BaseRoom.js:153) -/
  | abortWriteTxn
  /-- `throw err` propagating to the caller (BaseRoom.js:154) -/
  | throwError
  /-- `await writeTxn.complete()` (BaseRoom.js:156) -/
  | commitWriteTxn
  /-- `decryption.applyToEntries(entries)` (BaseRoom.js:158); the only
  statement of the run that mutates the entries' decryption state -/
  | applyToEntries
  /-- `this._observedEvents.updateEvents(entries)` (BaseRoom.js:160) -/
  | updateObservedEvents
deriving DecidableEq, Repr

/-- The store list built at BaseRoom.js:139-144:
`[groupSessionDecryptions]`, plus `deviceIdentities` pushed when
`this._isTimelineOpen` is true. -/
def writeStores (timelineOpen : Bool) : List StoreName :=
  if timelineOpen then [.groupSessionDecryptions, .deviceIdentities]
  else [.groupSessionDecryptions]

/-- Trace of one `_decryptEntries` run (BaseRoom.js:125-164 together with the
`DecryptionRequest` class, BaseRoom.js:470-491).  `dispose()` sets the
`_cancelled` flag and additionally calls `preparation.dispose()` when
`this.preparation` is non-null; `r.preparation` is non-null exactly from the
resolution of `prepareDecryptAll` until `r.preparation = null` right after
`decrypt()` resolves, so only a cancel landing `duringDecrypt` disposes the
preparation.  The cancelled flag is consulted only at the three
`if (r.cancelled) return;` checks. -/
def decryptRun (env : DecryptEnv) : List DecAction :=
  -- cancel flag as observed by check 1 (line 130)
  let c1 : Bool := !env.txnProvided && env.cancelAt == .duringReadTxn
  let t1 : List DecAction :=
    (if env.txnProvided then [] else [.acquireReadTxn]) ++ [.checkCancelled c1]
  if c1 then t1 else
  -- cancel flag as observed by check 2 (line 135)
  let c2 : Bool := env.cancelAt == .duringPrepare
  let t2 := t1 ++ [.filterEncryptedEvents, .prepareDecryptAll, .checkCancelled c2]
  if c2 then t2 else
  -- cancel flag as observed by check 3 (line 138); a cancel landing during
  -- the decrypt() await finds r.preparation non-null and disposes it
  let c3 : Bool := env.cancelAt == .duringDecrypt
  let t3 := t2 ++ [.executePlan]
      ++ (if c3 then [.disposePreparation] else []) ++ [.checkCancelled c3]
  if c3 then t3 else
  let t4 := t3 ++ [.openWriteTxn (writeStores env.timelineOpen)]
  if env.writeThrows then t4 ++ [.writeChanges, .abortWriteTxn, .throwError] else
  let t5 := t4 ++ [.writeChanges]
  if env.timelineOpen then
    if env.verifyThrows then t5 ++ [.verifySenders, .abortWriteTxn, .throwError]
    else t5 ++ [.verifySenders, .commitWriteTxn, .applyToEntries]
        ++ (if env.observedEventsPresent then [.updateObservedEvents] else [])
  else t5 ++ [.commitWriteTxn, .applyToEntries]
      ++ (if env.observedEventsPresent then [.updateObservedEvents] else [])

/-- Whether an action is the opening of the read-write transaction. -/
def isOpenWriteTxn : DecAction → Bool
  | .openWriteTxn _ => true
  | _ => false

/-- The store list the run's read-write transaction was opened over, if one
was opened. -/
def writeTxnStores (tr : List DecAction) : Option (List StoreName) :=
  tr.findSome? fun a => match a with
    | .openWriteTxn s => some s
    | _ => none

/-- The run touched storage in no way: it neither opened the read-write
transaction, nor attempted a write, nor committed, nor mutated the entries. -/
def noWriteEffects (tr : List DecAction) : Bool :=
  !tr.any isOpenWriteTxn &&
  !tr.contains .writeChanges &&
  !tr.contains .commitWriteTxn &&
  !tr.contains .applyToEntries

/-- Position of the first occurrence of an action in a trace
(the trace length when absent). -/
def actionIndex (a : DecAction) (tr : List DecAction) : Nat :=
  tr.findIdx (fun b => b == a)

/-- The cancel landed at a suspension point strictly before the
write-transaction step (BaseRoom.js:139) is reached, so that one of the three
cancellation checks fires.  When the inbound-session transaction is supplied
by the caller there is no suspension before check 1, so a cancel cannot be
observed there. -/
def cancelledBeforeWriteStep (env : DecryptEnv) : Bool :=
  (!env.txnProvided && env.cancelAt == .duringReadTxn) ||
  env.cancelAt == .duringPrepare || env.cancelAt == .duringDecrypt

/-- Environment of one `fillGap` run (BaseRoom.js:238-297). -/
structure GapEnv where
  /-- `fragmentEntry.edgeReached` -/
  edgeReached : Bool
  /-- whether the `this._hsApi.messages(...)` request fails -/
  messagesFails : Bool
  /-- whether `this._writeGapFill(response.chunk, txn, log)` throws -/
  writeGapFillThrows : Bool
  /-- whether `gapWriter.writeFragmentFill(...)` throws -/
  gapWriterThrows : Bool
  /-- whether `_writeGapFill` returned changes (subclass hook; the base
  implementation returns undefined) -/
  extraChanges : Bool
  /-- whether `this._roomEncryption` is set -/
  roomEncryption : Bool
  /-- whether `this._timeline` is set -/
  timelineOpen : Bool
deriving DecidableEq, Repr

instance : Fintype GapEnv :=
  Fintype.ofEquiv (Bool × Bool × Bool × Bool × Bool × Bool × Bool)
    { toFun := fun x =>
        ⟨x.1, x.2.1, x.2.2.1, x.2.2.2.1, x.2.2.2.2.1, x.2.2.2.2.2.1, x.2.2.2.2.2.2⟩
      invFun := fun s =>
        ⟨s.edgeReached, s.messagesFails, s.writeGapFillThrows, s.gapWriterThrows,
         s.extraChanges, s.roomEncryption, s.timelineOpen⟩
      left_inv := fun _ => rfl
      right_inv := fun _ => rfl }

/-- Observable actions of a `fillGap` run, in program order. -/
inductive GapAction where
  /-- `log.set("edgeReached", true); return;` (BaseRoom.js:245-246) -/
  | returnEdgeReached
  /-- `await this._hsApi.messages(...).response()` (BaseRoom.js:248-256) -/
  | requestMessages
  /-- `await this._storage.readWriteTxn([...])` (BaseRoom.js:258-262) -/
  | openTxn (stores : List StoreName)
  /-- `await this._writeGapFill(response.chunk, txn, log)` (BaseRoom.js:267) -/
  | writeGapFillStep
  /-- `await gapWriter.writeFragmentFill(...)` (BaseRoom.js:274) -/
  | writeFragmentFill
  /-- `txn.abort()` (BaseRoom.js:276) -/
  | abortTxn
  /-- `throw err` propagating to the caller (BaseRoom.js:277) -/
  | throwError
  /-- `await txn.complete()` (BaseRoom.js:279) -/
  | commitTxn
  /-- `await decryptRequest.complete()` (BaseRoom.js:281-282) -/
  | decryptEntriesStep
  /-- `this._fragmentIdComparer.add(fragment)` loop (BaseRoom.js:285-287) -/
  | addFragmentToComparer
  /-- `this._applyGapFill(extraGapFillChanges)` (BaseRoom.js:289) -/
  | applyGapFill
  /-- `this._timeline.replaceEntries(gapResult.updatedEntries)` (BaseRoom.js:293) -/
  | replaceEntriesInTimeline
  /-- `this._timeline.addOrReplaceEntries(gapResult.entries)` (BaseRoom.js:294) -/
  | addEntriesToTimeline
deriving DecidableEq, Repr

/-- The store list of the gap-fill transaction (BaseRoom.js:258-262). -/
def gapStores : List StoreName :=
  [.pendingEvents, .timelineEvents, .timelineFragments]

/-- Trace of one `fillGap` run (BaseRoom.js:238-297). -/
def fillGap (env : GapEnv) : List GapAction :=
  if env.edgeReached then [.returnEdgeReached] else
  if env.messagesFails then [.requestMessages, .throwError] else
  let t1 : List GapAction := [.requestMessages, .openTxn gapStores, .writeGapFillStep]
  if env.writeGapFillThrows then t1 ++ [.abortTxn, .throwError] else
  let t2 := t1 ++ [.writeFragmentFill]
  if env.gapWriterThrows then t2 ++ [.abortTxn, .throwError] else
  t2 ++ [.commitTxn]
    ++ (if env.roomEncryption then [.decryptEntriesStep] else [])
    ++ [.addFragmentToComparer]
    ++ (if env.extraChanges then [.applyGapFill] else [])
    ++ (if env.timelineOpen then [.replaceEntriesInTimeline, .addEntriesToTimeline] else [])

/-- Whether an action is the opening of the gap-fill transaction. -/
def isOpenGapTxn : GapAction → Bool
  | .openTxn _ => true
  | _ => false

/-- Every transaction opened by the run is opened over exactly the
pending-events, timeline-events and timeline-fragments stores. -/
def gapTxnStoresExact (tr : List GapAction) : Bool :=
  tr.all fun a => match a with
    | .openTxn s => s == gapStores
    | _ => true

/-- Position of the first occurrence of an action in a gap-fill trace. -/
def gapActionIndex (a : GapAction) (tr : List GapAction) : Nat :=
  tr.findIdx (fun b => b == a)

/-- Both write steps of the run, when present, sit strictly between the
transaction open and its commit or abort. -/
def gapWritesInsideTxn (tr : List GapAction) : Bool :=
  let openIdx := tr.findIdx isOpenGapTxn
  let endIdx := tr.findIdx (fun a => a == .commitTxn || a == .abortTxn)
  (!tr.contains .writeGapFillStep ||
    (decide (openIdx < gapActionIndex .writeGapFillStep tr) &&
     decide (gapActionIndex .writeGapFillStep tr < endIdx))) &&
  (!tr.contains .writeFragmentFill ||
    (decide (openIdx < gapActionIndex .writeFragmentFill tr) &&
     decide (gapActionIndex .writeFragmentFill tr < endIdx)))

/-- Result of a call to `openTimeline` as seen by its caller. -/
inductive OpenResult where
  /-- `throw new Error("not dealing with load race here for now")`
  (BaseRoom.js:391) -/
  | threwAlreadyOpen
  /-- `this._timeline.dispose(); throw err;` after a failed load
  (BaseRoom.js:412-415) -/
  | threwLoadError
  /-- `return this._timeline;` (BaseRoom.js:417) -/
  | opened (t : Nat)
deriving DecidableEq, Repr

/-- The synchronous prefix of `openTimeline` (BaseRoom.js:387-406): the
already-open check and, when it passes, the construction of the new
`Timeline` and its assignment to `this._timeline`.  All of this happens
before the first `await`, so a second `openTimeline` call racing a pending
`load` already observes the assigned timeline.  Timelines are identified by
a number; the room state is `this._timeline` as `Option Nat`.  Returns the
new state and whether the call threw. -/
def openTimelineStart (cur : Option Nat) (newId : Nat) : Option Nat × Bool :=
  match cur with
  | some t => (some t, true)
  | none => (some newId, false)

/-- A whole `openTimeline` run (BaseRoom.js:387-419): the synchronous prefix
followed by `await this._timeline.load(...)`; a load failure disposes the
timeline, which resets `this._timeline` to null through the close callback,
and rethrows. -/
def openTimelineRun (cur : Option Nat) (newId : Nat) (loadFails : Bool) :
    Option Nat × OpenResult :=
  match openTimelineStart cur newId with
  | (st, true) => (st, .threwAlreadyOpen)
  | (st, false) => if loadFails then (none, .threwLoadError) else (st, .opened newId)

/-- A JavaScript value as far as `typeof v === "string"` is concerned. -/
inductive JsVal where
  | undef
  | str (s : String)
  | other
deriving DecidableEq, Repr

/-- An event of a sync room response, reduced to the fields
`iterateResponseStateEvents` inspects; `body` stands for the remaining
payload. -/
structure StateEvent where
  eventType : String
  state_key : JsVal
  body : Nat
deriving DecidableEq, Repr

/-- The `state` / `timeline` sections of a room response; both the section
and its `events` array are optional. -/
structure EventsHolder where
  events : Option (List StateEvent)
deriving DecidableEq, Repr

/-- A sync room response, reduced to the sections
`iterateResponseStateEvents` reads. -/
structure RoomResponse where
  state : Option EventsHolder
  timeline : Option EventsHolder
deriving DecidableEq, Repr

/-- `typeof event.state_key === "string"` (common.ts line 568). -/
def isStringStateKey (e : StateEvent) : Bool :=
  match e.state_key with
  | .str _ => true
  | _ => false

/-- Embedding of `iterateResponseStateEvents` (common.ts:555-573).  The
callback is abstracted as a state transformer; each `for` loop becomes a
fold over the corresponding events array.  The state section is walked
first, unconditionally per event; the timeline section is walked next,
invoking the callback only when `typeof event.state_key === "string"`. -/
def iterateResponseStateEvents {σ : Type} (roomResponse : RoomResponse)
    (callback : σ → StateEvent → σ) (s0 : σ) : σ :=
  let s1 := match roomResponse.state with
    | some sec => match sec.events with
      | some evs => evs.foldl callback s0
      | none => s0
    | none => s0
  match roomResponse.timeline with
  | some sec => match sec.events with
    | some evs => evs.foldl (fun s e => match e.state_key with
        | .str _ => callback s e
        | _ => s) s1
    | none => s1
  | none => s1

/-- The events of the `state` section, `[]` when the section or its array is
absent. -/
def stateSectionEvents (r : RoomResponse) : List StateEvent :=
  match r.state with
  | some sec => sec.events.getD []
  | none => []

/-- The events of the `timeline` section, `[]` when the section or its array
is absent. -/
def timelineSectionEvents (r : RoomResponse) : List StateEvent :=
  match r.timeline with
  | some sec => sec.events.getD []
  | none => []

/-- An event entry as the retry machinery sees it.  `addr` models JavaScript
object identity (two aliases of one object share the `addr`; a freshly
constructed object gets a fresh one); `id` is the event id; `undecrypted`
and `blockedOnKey` are the decryption state and the session key the entry's
ciphertext needs, which is what
`RoomEncryption.filterUndecryptedEventEntriesForKeys` inspects. -/
structure Entry where
  addr : Nat
  id : String
  undecrypted : Bool
  blockedOnKey : Option String
deriving DecidableEq, Repr

/-- Reassign object identities: the construction of fresh `EventEntry`
objects (`new EventEntry(storageEntry, ...)`, BaseRoom.js:59) or of clones
(`e.clone()`, BaseRoom.js:182) from the given source data, allocating
consecutive fresh addresses starting at `base`. -/
def withFreshAddrs : Nat → List Entry → List Entry
  | _, [] => []
  | base, e :: es => { e with addr := base } :: withFreshAddrs (base + 1) es

/-- Fresh allocation returning the next unused address together with the
allocated objects. -/
def allocFresh (base : Nat) (es : List Entry) : Nat × List Entry :=
  (base + es.length, withFreshAddrs base es)

/-- `txn.timelineEvents.getByEventId(this._roomId, eventId)` (BaseRoom.js:57):
the timeline-events store of one room, modelled as the list of stored
entries, keyed by event id. -/
def lookupEvent (storage : List Entry) (eventId : String) : Option Entry :=
  storage.find? (fun e => e.id == eventId)

/-- Embedding of `_eventIdsToEntries` (BaseRoom.js:54-63): for each given
event id found in the timeline-events store, a fresh `EventEntry` object is
built from the stored record and collected; ids not found contribute
nothing. -/
def eventIdsToEntries (base : Nat) (storage : List Entry) (eventIds : List String) :
    List Entry :=
  withFreshAddrs base (eventIds.filterMap (lookupEvent storage))

/-- Modelled from the spec: `RoomEncryption.filterUndecryptedEventEntriesForKeys`
is part of the e2ee capability, whose source is not included; per the spec's
interface section it returns the given entries that are still undecrypted
and are blocked on one of the given keys. -/
def filterUndecryptedEventEntriesForKeys (entries : List Entry) (keys : List String) :
    List Entry :=
  entries.filter fun e =>
    e.undecrypted && (match e.blockedOnKey with
      | some k => keys.contains k
      | none => false)

/-- Embedding of `_getAdditionalTimelineRetryEntries` (BaseRoom.js:65-71):
the undecrypted live-timeline entries blocked on one of the keys, minus any
whose event id already occurs among the other retry entries ("so we don't
decrypt them twice"). -/
def getAdditionalTimelineRetryEntries (remoteEntries otherRetryEntries : List Entry)
    (roomKeys : List String) : List Entry :=
  let existingIds := otherRetryEntries.map Entry.id
  (filterUndecryptedEventEntriesForKeys remoteEntries roomKeys).filter
    (fun e => !existingIds.contains e.id)

/-- The source tag a decryption batch is submitted under
(`DecryptionSource` in `e2ee/common.js`). -/
inductive DecryptionSource where
  | Sync
  | Timeline
  | Retry
deriving DecidableEq, Repr

/-- Environment of one `notifyRoomKey` call. -/
structure NotifyEnv where
  /-- whether `this._roomEncryption` is set -/
  roomEncryption : Bool
  /-- whether `this._timeline` is set -/
  timelineOpen : Bool
  /-- the timeline-events store contents -/
  storage : List Entry
  /-- `this._timeline.remoteEntries` (meaningful when the timeline is open) -/
  remoteEntries : List Entry
deriving DecidableEq, Repr

/-- What a `notifyRoomKey` call did. -/
structure NotifyOutcome where
  /-- the final `retryEntries` batch -/
  batch : List Entry
  /-- the decryption requests started, with their source tag and batch -/
  decryptCalls : List (DecryptionSource × List Entry)
  /-- the entries passed to `this._timeline.replaceEntries`, `[]` when the
  call was not made -/
  replacedEntries : List Entry
deriving DecidableEq, Repr

/-- Embedding of `notifyRoomKey` (BaseRoom.js:80-108): bail out without
encryption; convert the given event ids to fresh entries from storage; when
the timeline is open, append the additional undecrypted timeline entries
blocked on the key that are not already in the batch (these are the
timeline's own objects, not copies); when the batch is non-empty, submit it
as one `DecryptionSource.Retry` request and afterwards replace the entries
in the open timeline.  `base` is the next fresh object address. -/
def notifyRoomKey (env : NotifyEnv) (base : Nat) (roomKey : String)
    (eventIds : List String) : NotifyOutcome :=
  if !env.roomEncryption then ⟨[], [], []⟩
  else
    let retry0 := eventIdsToEntries base env.storage eventIds
    let retry :=
      if env.timelineOpen then
        retry0 ++ getAdditionalTimelineRetryEntries env.remoteEntries retry0 [roomKey]
      else retry0
    if retry.isEmpty then ⟨retry, [], []⟩
    else ⟨retry, [(.Retry, retry)], if env.timelineOpen then retry else []⟩

/-- Modelled from the spec: `RoomEncryption.getEventIdsForMissingKey` is part
of the e2ee capability, whose source is not included; per the spec it
returns the event ids indexed as blocked on the given key, or nothing.  It
is abstracted here as an arbitrary index function passed to
`entriesForKeys`. -/
def MissingKeyIndex : Type := String → Option (List String)

/-- The per-key part of `_getSyncRetryDecryptEntries` (BaseRoom.js:168-174):
for every new key, look up the blocked event ids and convert the ids that
are found in storage to fresh entries; concatenate per key, in key order. -/
def entriesForKeys (storage : List Entry) (idx : MissingKeyIndex) :
    Nat → List String → Nat × List Entry
  | base, [] => (base, [])
  | base, k :: ks =>
    match idx k with
    | none => entriesForKeys storage idx base ks
    | some ids =>
      let p := allocFresh base (ids.filterMap (lookupEvent storage))
      let q := entriesForKeys storage idx p.1 ks
      (q.1, p.2 ++ q.2)

/-- Embedding of `_getSyncRetryDecryptEntries` (BaseRoom.js:167-187): the
storage-derived retry entries for all new keys, plus — when the timeline is
open — clones of the additional undecrypted timeline entries blocked on one
of the keys ("make copies so we don't modify the original entry in
writeSync"); `EventEntry.clone` is outside the included source and is
modelled from the spec as copying the entry's data into a fresh object. -/
def getSyncRetryDecryptEntries (base : Nat) (storage : List Entry)
    (idx : MissingKeyIndex) (newKeys : List String) (timelineOpen : Bool)
    (remoteEntries : List Entry) : List Entry :=
  let p := entriesForKeys storage idx base newKeys
  if timelineOpen then
    let retryTimelineEntries := getAdditionalTimelineRetryEntries remoteEntries p.2 newKeys
    p.2 ++ (allocFresh p.1 retryTimelineEntries).2
  else p.2

/-- Mutating the decryption state of the objects at the given addresses: the
effect `applyToEntries` has on a heap that maps each object address to its
decrypted flag.  Objects at other addresses are untouched. -/
def markDecrypted (heap : Nat → Bool) (addrs : List Nat) : Nat → Bool :=
  fun a => if addrs.contains a then true else heap a

/-- Each pre-write suspension point reached by the run (read-transaction
acquisition, plan preparation, plan execution) is directly followed by a
cancellation check — with the preparation disposal, when the cancel landed
during the execute step, sitting between the execute and its check. -/
def cancelCheckAfterSuspension : List DecAction → Bool
  | [] => true
  | .acquireReadTxn :: rest =>
    (match rest with
      | .checkCancelled _ :: _ => true
      | _ => false) && cancelCheckAfterSuspension rest
  | .prepareDecryptAll :: rest =>
    (match rest with
      | .checkCancelled _ :: _ => true
      | _ => false) && cancelCheckAfterSuspension rest
  | .executePlan :: rest =>
    (match rest with
      | .checkCancelled _ :: _ => true
      | .disposePreparation :: .checkCancelled _ :: _ => true
      | _ => false) && cancelCheckAfterSuspension rest
  | _ :: rest => cancelCheckAfterSuspension rest

/-- The room response of the repository's own
"test iterateResponseStateEvents with both state and timeline sections". -/
def respEx : RoomResponse :=
  ⟨some ⟨some [⟨"m.room.member", .str "1", 0⟩, ⟨"m.room.member", .str "2", 1⟩]⟩,
   some ⟨some [⟨"m.room.message", .undef, 2⟩, ⟨"m.room.member", .str "3", 3⟩,
               ⟨"m.room.message", .undef, 4⟩, ⟨"m.room.member", .str "2", 5⟩]⟩⟩

/-- A concrete `notifyRoomKey` environment: encryption on, timeline open, one
stored event `e1` and one live-timeline entry `e2`, both blocked on key
`k1`. -/
def nrkEnvW : NotifyEnv :=
  ⟨true, true, [⟨0, "e1", true, some "k1"⟩], [⟨5, "e2", true, some "k1"⟩]⟩

/-- A concrete missing-key index: key `k1` blocks event `e1`. -/
def idxW : MissingKeyIndex :=
  fun k => if k == "k1" then some ["e1"] else none

/-- Claim C1: a decryption request cancelled before the write-transaction
step is reached performs no storage write — it never opens the read-write
transaction, writes nothing, commits nothing, and leaves the entries'
decryption state untouched — and every pre-write suspension point is
directly followed by a cancellation check, the one after the point the
cancel landed on observing the cancellation (it is the last action of the
run). -/
theorem decryptEntries_cancel_before_write_no_effects :
    (∀ env : DecryptEnv, cancelCheckAfterSuspension (decryptRun env) = true) ∧
    (∀ env : DecryptEnv, cancelledBeforeWriteStep env = true →
      noWriteEffects (decryptRun env) = true ∧
      (decryptRun env).getLast? = some (.checkCancelled true)) := by
  constructor
  · set_option maxRecDepth 8192 in decide
  · set_option maxRecDepth 8192 in decide

theorem decryptEntries_cancel_before_write_no_effects_witness :
    cancelCheckAfterSuspension
      (decryptRun ⟨false, true, false, false, false, .duringPrepare⟩) = true ∧
    noWriteEffects (decryptRun ⟨false, true, false, false, false, .duringPrepare⟩) = true ∧
    (decryptRun ⟨false, true, false, false, false, .duringPrepare⟩).getLast? =
      some (.checkCancelled true) :=
  ⟨decryptEntries_cancel_before_write_no_effects.1 _,
   (decryptEntries_cancel_before_write_no_effects.2 _ (by decide)).1,
   (decryptEntries_cancel_before_write_no_effects.2 _ (by decide)).2⟩

/-- Claim C3: a decryption request that reaches the write step and whose
`changes.write` (or `verifySenders`, when performed) throws aborts the
read-write transaction and ends by propagating the error, with no commit and
no mutation of the in-memory entries; and in every run the entries are
mutated only after the transaction committed. -/
theorem decryptEntries_write_error_aborts :
    (∀ env : DecryptEnv, DecAction.applyToEntries ∈ decryptRun env →
      DecAction.commitWriteTxn ∈ decryptRun env ∧
      actionIndex .commitWriteTxn (decryptRun env) <
        actionIndex .applyToEntries (decryptRun env)) ∧
    (∀ env : DecryptEnv, cancelledBeforeWriteStep env = false →
      env.writeThrows = true ∨ (env.timelineOpen = true ∧ env.verifyThrows = true) →
      DecAction.abortWriteTxn ∈ decryptRun env ∧
      (decryptRun env).getLast? = some .throwError ∧
      DecAction.commitWriteTxn ∉ decryptRun env ∧
      DecAction.applyToEntries ∉ decryptRun env) := by
  constructor
  · set_option maxRecDepth 8192 in decide
  · set_option maxRecDepth 8192 in decide

theorem decryptEntries_write_error_aborts_witness :
    (DecAction.commitWriteTxn ∈ decryptRun ⟨true, false, false, false, false, .never⟩ ∧
      actionIndex .commitWriteTxn (decryptRun ⟨true, false, false, false, false, .never⟩) <
        actionIndex .applyToEntries (decryptRun ⟨true, false, false, false, false, .never⟩)) ∧
    (DecAction.abortWriteTxn ∈ decryptRun ⟨true, true, false, true, false, .never⟩ ∧
      (decryptRun ⟨true, true, false, true, false, .never⟩).getLast? = some .throwError ∧
      DecAction.commitWriteTxn ∉ decryptRun ⟨true, true, false, true, false, .never⟩ ∧
      DecAction.applyToEntries ∉ decryptRun ⟨true, true, false, true, false, .never⟩) :=
  ⟨decryptEntries_write_error_aborts.1 _ (by decide),
   decryptEntries_write_error_aborts.2 _ (by decide) (by decide)⟩

/-- Claim C5, counterexample: with the timeline open at the time the write
transaction is opened but `changes.write` throwing, the run opens the write
transaction yet never performs sender verification — so verification is not
performed "if and only if a live timeline is open at the time the write
transaction is opened". -/
theorem decryptEntries_verify_iff_cex :
    (decryptRun ⟨true, true, false, true, false, .never⟩).any isOpenWriteTxn = true ∧
    DecryptEnv.timelineOpen ⟨true, true, false, true, false, .never⟩ = true ∧
    DecAction.verifySenders ∉ decryptRun ⟨true, true, false, true, false, .never⟩ := by
  decide

/-- Claim C5 as amended: sender verification is performed iff the request
reaches the write step with a live timeline open at the time the write
transaction is opened and writing the decryption changes does not throw;
when performed it sits inside the read-write transaction — after the open
and before the commit or the abort; and whenever the write transaction is
opened it covers the device-identity store in addition to the
decrypted-session store exactly when the timeline is open. -/
theorem decryptEntries_verify_amended :
    ∀ env : DecryptEnv,
      (DecAction.verifySenders ∈ decryptRun env ↔
        cancelledBeforeWriteStep env = false ∧ env.timelineOpen = true ∧
          env.writeThrows = false) ∧
      (DecAction.verifySenders ∈ decryptRun env →
        actionIndex (.openWriteTxn (writeStores env.timelineOpen)) (decryptRun env) <
          actionIndex .verifySenders (decryptRun env) ∧
        (DecAction.commitWriteTxn ∈ decryptRun env →
          actionIndex .verifySenders (decryptRun env) <
            actionIndex .commitWriteTxn (decryptRun env)) ∧
        (DecAction.abortWriteTxn ∈ decryptRun env →
          actionIndex .verifySenders (decryptRun env) <
            actionIndex .abortWriteTxn (decryptRun env))) ∧
      writeTxnStores (decryptRun env) =
        (if (decryptRun env).any isOpenWriteTxn then some (writeStores env.timelineOpen)
         else none) := by
  set_option maxRecDepth 8192 in decide

theorem decryptEntries_verify_amended_witness :
    DecAction.verifySenders ∈ decryptRun ⟨true, true, false, false, false, .never⟩ ∧
    writeTxnStores (decryptRun ⟨true, true, false, false, false, .never⟩) =
      some [.groupSessionDecryptions, .deviceIdentities] :=
  ⟨(decryptEntries_verify_amended ⟨true, true, false, false, false, .never⟩).1.mpr
      (by decide),
   ((decryptEntries_verify_amended ⟨true, true, false, false, false, .never⟩).2.2).trans
      (by decide)⟩

/-- Claim C7: a cancel landing while the prepared decrypt plan exists — the
only suspension point inside that window is the `decrypt()` await — disposes
the held preparation exactly once and leaves storage untouched; at every
other interleaving the request never disposes a preparation. -/
theorem decryptEntries_cancel_during_decrypt_disposes :
    (∀ env : DecryptEnv, env.cancelAt = .duringDecrypt →
      (decryptRun env).count .disposePreparation = 1 ∧
      noWriteEffects (decryptRun env) = true) ∧
    (∀ env : DecryptEnv, env.cancelAt ≠ .duringDecrypt →
      (decryptRun env).count .disposePreparation = 0) := by
  constructor
  · set_option maxRecDepth 8192 in decide
  · set_option maxRecDepth 8192 in decide

theorem decryptEntries_cancel_during_decrypt_disposes_witness :
    ((decryptRun ⟨false, true, true, false, false, .duringDecrypt⟩).count
        .disposePreparation = 1 ∧
      noWriteEffects (decryptRun ⟨false, true, true, false, false, .duringDecrypt⟩) = true) ∧
    (decryptRun ⟨false, true, true, false, false, .never⟩).count .disposePreparation = 0 :=
  ⟨decryptEntries_cancel_during_decrypt_disposes.1 _ rfl,
   decryptEntries_cancel_during_decrypt_disposes.2 _ (by decide)⟩

/-- Claim C2: every gap fill opens at most one transaction, always over
exactly the pending-events, timeline-events and timeline-fragments stores,
with both write steps sitting inside it; and when a step inside the
transaction throws, the run aborts the transaction and ends by re-raising
the error, never committing, so no state from the fill is persisted. -/
theorem fillGap_single_txn_abort_on_error :
    (∀ env : GapEnv,
      gapTxnStoresExact (fillGap env) = true ∧
      (fillGap env).countP isOpenGapTxn ≤ 1 ∧
      gapWritesInsideTxn (fillGap env) = true) ∧
    (∀ env : GapEnv, env.edgeReached = false → env.messagesFails = false →
      env.writeGapFillThrows = true ∨ env.gapWriterThrows = true →
      GapAction.abortTxn ∈ fillGap env ∧
      (fillGap env).getLast? = some .throwError ∧
      GapAction.commitTxn ∉ fillGap env) := by
  constructor
  · set_option maxRecDepth 8192 in decide
  · set_option maxRecDepth 8192 in decide

theorem fillGap_single_txn_abort_on_error_witness :
    (gapTxnStoresExact (fillGap ⟨false, false, false, false, true, true, true⟩) = true ∧
      (fillGap ⟨false, false, false, false, true, true, true⟩).countP isOpenGapTxn ≤ 1 ∧
      gapWritesInsideTxn (fillGap ⟨false, false, false, false, true, true, true⟩) = true) ∧
    (GapAction.abortTxn ∈ fillGap ⟨false, false, false, true, false, false, false⟩ ∧
      (fillGap ⟨false, false, false, true, false, false, false⟩).getLast? =
        some .throwError ∧
      GapAction.commitTxn ∉ fillGap ⟨false, false, false, true, false, false, false⟩) :=
  ⟨fillGap_single_txn_abort_on_error.1 _,
   fillGap_single_txn_abort_on_error.2 _ rfl rfl (by decide)⟩

/-- Claim C9: a gap fill on a fragment entry whose `edgeReached` flag is set
returns at once — its whole trace is the edge-reached return, so it issues
no messages request, opens no transaction, commits nothing, and touches
neither the fragment comparer nor the live timeline. -/
theorem fillGap_edgeReached_noop (env : GapEnv) (h : env.edgeReached = true) :
    fillGap env = [.returnEdgeReached] ∧
    GapAction.requestMessages ∉ fillGap env ∧
    (fillGap env).any isOpenGapTxn = false ∧
    GapAction.commitTxn ∉ fillGap env ∧
    GapAction.addFragmentToComparer ∉ fillGap env ∧
    GapAction.replaceEntriesInTimeline ∉ fillGap env ∧
    GapAction.addEntriesToTimeline ∉ fillGap env := by
  have H : ∀ e : GapEnv, e.edgeReached = true →
      fillGap e = [.returnEdgeReached] ∧
      GapAction.requestMessages ∉ fillGap e ∧
      (fillGap e).any isOpenGapTxn = false ∧
      GapAction.commitTxn ∉ fillGap e ∧
      GapAction.addFragmentToComparer ∉ fillGap e ∧
      GapAction.replaceEntriesInTimeline ∉ fillGap e ∧
      GapAction.addEntriesToTimeline ∉ fillGap e := by
    set_option maxRecDepth 8192 in decide
  exact H env h

theorem fillGap_edgeReached_noop_witness :
    fillGap ⟨true, false, false, false, false, true, true⟩ = [.returnEdgeReached] ∧
    GapAction.requestMessages ∉ fillGap ⟨true, false, false, false, false, true, true⟩ :=
  ⟨(fillGap_edgeReached_noop ⟨true, false, false, false, false, true, true⟩ rfl).1,
   (fillGap_edgeReached_noop ⟨true, false, false, false, false, true, true⟩ rfl).2.1⟩

/-- Claim C6: opening a timeline while one is already open — including while
a previous open is still resolving, since the previous call assigned
`this._timeline` before its first await — throws instead of returning a
timeline, and leaves the already-open timeline in place. -/
theorem openTimeline_already_open_throws :
    (∀ (t newId : Nat) (loadFails : Bool),
      openTimelineRun (some t) newId loadFails = (some t, .threwAlreadyOpen)) ∧
    (∀ newId : Nat, openTimelineStart none newId = (some newId, false)) ∧
    (∀ (newId newId2 : Nat) (loadFails : Bool),
      openTimelineRun (openTimelineStart none newId).1 newId2 loadFails =
        (some newId, .threwAlreadyOpen)) :=
  ⟨fun _ _ _ => rfl, fun _ => rfl, fun _ _ _ => rfl⟩

theorem openTimeline_already_open_throws_witness :
    openTimelineRun (some 1) 2 false = (some 1, .threwAlreadyOpen) ∧
    openTimelineRun (openTimelineStart none 1).1 2 true = (some 1, .threwAlreadyOpen) :=
  ⟨openTimeline_already_open_throws.1 1 2 false,
   openTimeline_already_open_throws.2.2 1 2 true⟩

/-- Folding the guarded timeline-loop body equals folding the plain callback
over the events whose `state_key` is a string. -/
theorem foldl_guarded_eq_foldl_filter {σ : Type} (callback : σ → StateEvent → σ) :
    ∀ (evs : List StateEvent) (s : σ),
      evs.foldl (fun s e => match e.state_key with
        | .str _ => callback s e
        | _ => s) s =
      (evs.filter isStringStateKey).foldl callback s := by
  intro evs
  induction evs with
  | nil => intro s; rfl
  | cons e rest ih =>
    intro s
    cases h : e.state_key <;>
      simp [List.filter_cons, List.foldl_cons, isStringStateKey, h, ih]

/-- Claim C10: for every room response and every callback,
`iterateResponseStateEvents` performs exactly the callback invocations of
folding over the state-section events (all of them, in array order) followed
by the timeline-section events whose `state_key` is a string (in array
order); timeline events without a string `state_key` are never passed, and a
response with neither section invokes the callback zero times. -/
theorem iterateResponseStateEvents_order {σ : Type} (r : RoomResponse)
    (callback : σ → StateEvent → σ) (s0 : σ) :
    iterateResponseStateEvents r callback s0 =
      (stateSectionEvents r ++ (timelineSectionEvents r).filter isStringStateKey).foldl
        callback s0 := by
  rcases r with ⟨_ | ⟨_ | sevs⟩, _ | ⟨_ | tevs⟩⟩ <;>
    simp [iterateResponseStateEvents, stateSectionEvents, timelineSectionEvents,
          List.foldl_append, foldl_guarded_eq_foldl_filter]

theorem iterateResponseStateEvents_order_witness :
    iterateResponseStateEvents respEx (fun l e => l ++ [e]) ([] : List StateEvent) =
      [⟨"m.room.member", .str "1", 0⟩, ⟨"m.room.member", .str "2", 1⟩,
       ⟨"m.room.member", .str "3", 3⟩, ⟨"m.room.member", .str "2", 5⟩] :=
  (iterateResponseStateEvents_order respEx (fun l e => l ++ [e]) []).trans (by decide)

/-- Bridge between `List.contains` and membership under a lawful `BEq`. -/
theorem contains_eq_false_iff_not_mem {α : Type} [BEq α] [LawfulBEq α]
    (l : List α) (a : α) : l.contains a = false ↔ a ∉ l := by
  constructor
  · intro h hm
    have h' : l.elem a = true := List.elem_iff.mpr hm
    rw [show l.contains a = l.elem a from rfl, h'] at h
    cases h
  · intro h
    rw [Bool.eq_false_iff]
    intro hc
    exact h (List.elem_iff.mp hc)

/-- Reassigning object addresses keeps the event ids, in order. -/
theorem withFreshAddrs_map_id (b : Nat) (es : List Entry) :
    (withFreshAddrs b es).map Entry.id = es.map Entry.id := by
  induction es generalizing b with
  | nil => rfl
  | cons e es ih => simp [withFreshAddrs, ih]

/-- Every source entry shows up among the freshly allocated objects with its
data intact. -/
theorem mem_withFreshAddrs_data (s : Entry) :
    ∀ (es : List Entry) (b : Nat), s ∈ es →
      ∃ e ∈ withFreshAddrs b es,
        e.id = s.id ∧ e.undecrypted = s.undecrypted ∧ e.blockedOnKey = s.blockedOnKey := by
  intro es
  induction es with
  | nil => intro b hs; cases hs
  | cons a es ih =>
    intro b hs
    rcases List.mem_cons.mp hs with h | h
    · subst h
      exact ⟨{ s with addr := b }, List.mem_cons_self _ _, rfl, rfl, rfl⟩
    · obtain ⟨e, he, hd⟩ := ih (b + 1) h
      exact ⟨e, List.mem_cons_of_mem _ he, hd⟩

/-- A successful store lookup returns the entry keyed by the queried id. -/
theorem lookupEvent_id {storage : List Entry} {eid : String} {e : Entry}
    (h : lookupEvent storage eid = some e) : e.id = eid := by
  unfold lookupEvent at h
  have hp := List.find?_some h
  exact eq_of_beq hp

/-- The ids of the entries found for a list of event ids are exactly the
queried ids that hit the store, in query order. -/
theorem map_id_filterMap_lookup (storage : List Entry) (ids : List String) :
    (ids.filterMap (lookupEvent storage)).map Entry.id =
      ids.filter (fun eid => (lookupEvent storage eid).isSome) := by
  induction ids with
  | nil => rfl
  | cons eid rest ih =>
    cases h : lookupEvent storage eid with
    | none => simp [List.filterMap_cons, h, List.filter_cons, ih]
    | some e =>
      have he := lookupEvent_id h
      simp [List.filterMap_cons, h, List.filter_cons, ih, he]

/-- The ids of `_eventIdsToEntries`' result are the queried ids found in the
store. -/
theorem eventIdsToEntries_map_id (b : Nat) (st : List Entry) (ids : List String) :
    (eventIdsToEntries b st ids).map Entry.id =
      ids.filter (fun eid => (lookupEvent st eid).isSome) := by
  rw [eventIdsToEntries, withFreshAddrs_map_id, map_id_filterMap_lookup]

/-- The additional timeline retry entries are drawn from the timeline's
remote entries. -/
theorem getAdditionalTimelineRetryEntries_sublist
    (remoteEntries otherRetryEntries : List Entry) (roomKeys : List String) :
    List.Sublist (getAdditionalTimelineRetryEntries remoteEntries otherRetryEntries roomKeys)
      remoteEntries := by
  unfold getAdditionalTimelineRetryEntries filterUndecryptedEventEntriesForKeys
  exact (List.filter_sublist _).trans (List.filter_sublist _)

/-- Claim C4, counterexample: passing the same event id twice to
`notifyRoomKey` puts two entries with that event id into the retry batch, so
the batch is not duplicate-free as the claim states. -/
theorem notifyRoomKey_batch_duplicate_cex :
    ¬ (((notifyRoomKey ⟨true, false, [⟨0, "e1", true, some "k1"⟩], []⟩ 10 "k1"
          ["e1", "e1"]).batch.map Entry.id).Nodup) := by
  decide

/-- Claim C4 as amended: provided the given event ids are pairwise distinct
and the open timeline's entries carry pairwise-distinct ids, the
`notifyRoomKey` retry batch contains an entry with the stored data for every
given event id found in storage, plus every undecrypted live-timeline entry
blocked on the key whose id is not already among the storage-derived
entries; it contains nothing else; no event id appears twice in it; a
non-empty batch is submitted as exactly one retry-sourced decryption
request; and the batch replaces the corresponding entries in the live
timeline exactly when the timeline is open and the batch non-empty. -/
theorem notifyRoomKey_batch_amended
    (env : NotifyEnv) (base : Nat) (roomKey : String) (eventIds : List String)
    (hEnc : env.roomEncryption = true)
    (hIds : eventIds.Nodup)
    (hRem : (env.remoteEntries.map Entry.id).Nodup) :
    (∀ eid ∈ eventIds, ∀ s, lookupEvent env.storage eid = some s →
      ∃ e ∈ (notifyRoomKey env base roomKey eventIds).batch,
        e.id = s.id ∧ e.undecrypted = s.undecrypted ∧ e.blockedOnKey = s.blockedOnKey) ∧
    (env.timelineOpen = true → ∀ t ∈ env.remoteEntries, t.undecrypted = true →
      t.blockedOnKey = some roomKey →
      t.id ∉ (eventIdsToEntries base env.storage eventIds).map Entry.id →
      t ∈ (notifyRoomKey env base roomKey eventIds).batch) ∧
    (∀ e ∈ (notifyRoomKey env base roomKey eventIds).batch,
      e ∈ eventIdsToEntries base env.storage eventIds ∨
      (env.timelineOpen = true ∧ e ∈ env.remoteEntries ∧ e.undecrypted = true ∧
        e.blockedOnKey = some roomKey)) ∧
    ((notifyRoomKey env base roomKey eventIds).batch.map Entry.id).Nodup ∧
    ((notifyRoomKey env base roomKey eventIds).batch ≠ [] →
      (notifyRoomKey env base roomKey eventIds).decryptCalls =
        [(.Retry, (notifyRoomKey env base roomKey eventIds).batch)]) ∧
    ((notifyRoomKey env base roomKey eventIds).replacedEntries =
      if env.timelineOpen && !(notifyRoomKey env base roomKey eventIds).batch.isEmpty
      then (notifyRoomKey env base roomKey eventIds).batch else []) := by
  have hbatch : (notifyRoomKey env base roomKey eventIds).batch =
      if env.timelineOpen then
        eventIdsToEntries base env.storage eventIds ++
          getAdditionalTimelineRetryEntries env.remoteEntries
            (eventIdsToEntries base env.storage eventIds) [roomKey]
      else eventIdsToEntries base env.storage eventIds := by
    simp only [notifyRoomKey, hEnc, Bool.not_true, Bool.false_eq_true, if_false]
    split <;> split <;> rfl
  have hAid : ((eventIdsToEntries base env.storage eventIds).map Entry.id).Nodup := by
    rw [eventIdsToEntries_map_id]
    exact hIds.filter _
  refine ⟨?_, ?_, ?_, ?_, ?_, ?_⟩
  · -- storage part: every given id found in storage has its data in the batch
    intro eid hmem s hlk
    have hsmem : s ∈ eventIds.filterMap (lookupEvent env.storage) :=
      List.mem_filterMap.mpr ⟨eid, hmem, hlk⟩
    obtain ⟨e, he, hd⟩ := mem_withFreshAddrs_data s _ base hsmem
    have heA : e ∈ eventIdsToEntries base env.storage eventIds := he
    refine ⟨e, ?_, hd⟩
    rw [hbatch]
    by_cases hTL : env.timelineOpen = true
    · simp only [hTL, if_true]
      exact List.mem_append_left _ heA
    · simp only [Bool.not_eq_true] at hTL
      simp only [hTL, Bool.false_eq_true, if_false]
      exact heA
  · -- timeline part: blocked entries not already in the batch are appended
    intro hTL t ht hund hka hnotin
    have hq : (!((eventIdsToEntries base env.storage eventIds).map Entry.id).contains t.id)
        = true := by
      rw [Bool.not_eq_true']
      exact (contains_eq_false_iff_not_mem _ _).mpr hnotin
    have hkmem : ([roomKey].contains roomKey) = true :=
      List.elem_iff.mpr (List.mem_singleton_self _)
    have hBmem : t ∈ getAdditionalTimelineRetryEntries env.remoteEntries
        (eventIdsToEntries base env.storage eventIds) [roomKey] := by
      unfold getAdditionalTimelineRetryEntries
      refine List.mem_filter.mpr ⟨?_, hq⟩
      unfold filterUndecryptedEventEntriesForKeys
      refine List.mem_filter.mpr ⟨ht, ?_⟩
      rw [hund, hka]
      simp [hkmem]
    rw [hbatch]
    simp only [hTL, if_true]
    exact List.mem_append_right _ hBmem
  · -- completeness: nothing else is in the batch
    intro e he
    rw [hbatch] at he
    by_cases hTL : env.timelineOpen = true
    · simp only [hTL, if_true] at he
      rcases List.mem_append.mp he with hA | hB
      · exact Or.inl hA
      · unfold getAdditionalTimelineRetryEntries at hB
        have hB1 := (List.mem_filter.mp hB).1
        unfold filterUndecryptedEventEntriesForKeys at hB1
        obtain ⟨hrem, hpred⟩ := List.mem_filter.mp hB1
        rw [Bool.and_eq_true] at hpred
        obtain ⟨hund, hmatch⟩ := hpred
        cases hbk : e.blockedOnKey with
        | none => rw [hbk] at hmatch; cases hmatch
        | some k =>
          rw [hbk] at hmatch
          have hk : k ∈ [roomKey] := List.elem_iff.mp hmatch
          have hk' : k = roomKey := List.mem_singleton.mp hk
          exact Or.inr ⟨hTL, hrem, hund, by simp [hbk, hk']⟩
    · simp only [Bool.not_eq_true] at hTL
      simp only [hTL, Bool.false_eq_true, if_false] at he
      exact Or.inl he
  · -- no event id appears twice
    rw [hbatch]
    by_cases hTL : env.timelineOpen = true
    · simp only [hTL, if_true]
      rw [List.map_append]
      have hsub := getAdditionalTimelineRetryEntries_sublist env.remoteEntries
        (eventIdsToEntries base env.storage eventIds) [roomKey]
      have hBid : ((getAdditionalTimelineRetryEntries env.remoteEntries
          (eventIdsToEntries base env.storage eventIds) [roomKey]).map Entry.id).Nodup :=
        hRem.sublist (hsub.map Entry.id)
      refine hAid.append hBid ?_
      intro x hxA hxB
      obtain ⟨b, hbB, hbid⟩ := List.mem_map.mp hxB
      unfold getAdditionalTimelineRetryEntries at hbB
      have hq := (List.mem_filter.mp hbB).2
      rw [Bool.not_eq_true'] at hq
      have : b.id ∉ (eventIdsToEntries base env.storage eventIds).map Entry.id :=
        (contains_eq_false_iff_not_mem _ _).mp hq
      rw [hbid] at this
      exact this hxA
    · simp only [Bool.not_eq_true] at hTL
      simp only [hTL, Bool.false_eq_true, if_false]
      exact hAid
  · -- a non-empty batch is submitted as one retry-sourced request
    simp only [notifyRoomKey, hEnc, Bool.not_true, Bool.false_eq_true, if_false]
    split
    · split
      · rename_i hE
        intro hne
        exact absurd (List.isEmpty_iff.mp hE) hne
      · intro _
        rfl
    · split
      · rename_i hE
        intro hne
        exact absurd (List.isEmpty_iff.mp hE) hne
      · intro _
        rfl
  · -- the timeline replacement happens iff open and non-empty
    simp only [notifyRoomKey, hEnc, Bool.not_true, Bool.false_eq_true, if_false]
    split
    · split
      · rename_i hE
        simp [hE]
      · rename_i hTL hE
        simp only [Bool.not_eq_true] at hE
        simp [hTL, hE]
    · split
      · rename_i hTL hE
        simp only [Bool.not_eq_true] at hTL
        simp [hTL, hE]
      · rename_i hTL hE
        simp only [Bool.not_eq_true] at hTL hE
        simp [hTL, hE]

theorem notifyRoomKey_batch_amended_witness :
    ((notifyRoomKey nrkEnvW 10 "k1" ["e1"]).batch.map Entry.id).Nodup ∧
    (⟨5, "e2", true, some "k1"⟩ : Entry) ∈ (notifyRoomKey nrkEnvW 10 "k1" ["e1"]).batch ∧
    (notifyRoomKey nrkEnvW 10 "k1" ["e1"]).decryptCalls =
      [(.Retry, (notifyRoomKey nrkEnvW 10 "k1" ["e1"]).batch)] ∧
    (notifyRoomKey nrkEnvW 10 "k1" ["e1"]).replacedEntries =
      (notifyRoomKey nrkEnvW 10 "k1" ["e1"]).batch := by
  have h := notifyRoomKey_batch_amended nrkEnvW 10 "k1" ["e1"] rfl (by decide) (by decide)
  refine ⟨h.2.2.2.1, ?_, h.2.2.2.2.1 (by decide), ?_⟩
  · exact h.2.1 rfl ⟨5, "e2", true, some "k1"⟩ (by decide) rfl rfl (by decide)
  · exact (h.2.2.2.2.2).trans (by decide)

/-- Addresses handed out by `withFreshAddrs` start at the allocation base. -/
theorem mem_withFreshAddrs_addr {e : Entry} :
    ∀ (es : List Entry) (b : Nat), e ∈ withFreshAddrs b es → b ≤ e.addr := by
  intro es
  induction es with
  | nil => intro b h; cases h
  | cons a es ih =>
    intro b h
    rcases List.mem_cons.mp h with h | h
    · rw [h]
    · exact Nat.le_of_succ_le (ih (b + 1) h)

/-- The running allocation base of `entriesForKeys` never decreases. -/
theorem entriesForKeys_fst_le (st : List Entry) (idx : MissingKeyIndex) :
    ∀ (ks : List String) (b : Nat), b ≤ (entriesForKeys st idx b ks).1 := by
  intro ks
  induction ks with
  | nil => intro b; exact Nat.le_refl b
  | cons k ks ih =>
    intro b
    unfold entriesForKeys
    cases h : idx k with
    | none => exact ih b
    | some ids =>
      simp only [allocFresh]
      exact Nat.le_trans (Nat.le_add_right b _) (ih _)

/-- Every entry produced by `entriesForKeys` was allocated at or above the
starting base. -/
theorem entriesForKeys_mem_addr (st : List Entry) (idx : MissingKeyIndex) :
    ∀ (ks : List String) (b : Nat) (e : Entry),
      e ∈ (entriesForKeys st idx b ks).2 → b ≤ e.addr := by
  intro ks
  induction ks with
  | nil => intro b e h; cases h
  | cons k ks ih =>
    intro b e h
    rw [show entriesForKeys st idx b (k :: ks) =
        (match idx k with
          | none => entriesForKeys st idx b ks
          | some ids =>
            let p := allocFresh b (ids.filterMap (lookupEvent st))
            let q := entriesForKeys st idx p.1 ks
            (q.1, p.2 ++ q.2)) from rfl] at h
    cases hk : idx k with
    | none =>
      rw [hk] at h
      exact ih b e h
    | some ids =>
      rw [hk] at h
      simp only [allocFresh] at h
      rcases List.mem_append.mp h with h | h
      · exact mem_withFreshAddrs_addr _ b h
      · exact Nat.le_trans (Nat.le_add_right b _) (ih _ e h)

/-- Claim C8: when every live-timeline entry lives below the allocation
base, every entry of the sync-retry batch is a freshly allocated object —
the storage-derived ones and the clones of the additional timeline entries
alike — so the batch shares no object with the timeline, and marking the
batch's objects decrypted leaves the decryption state of every timeline
entry unchanged. -/
theorem syncRetryEntries_fresh_objects (base : Nat) (storage : List Entry)
    (idx : MissingKeyIndex) (newKeys : List String) (timelineOpen : Bool)
    (remoteEntries : List Entry)
    (hB : ∀ t ∈ remoteEntries, t.addr < base) :
    (∀ e ∈ getSyncRetryDecryptEntries base storage idx newKeys timelineOpen remoteEntries,
      base ≤ e.addr) ∧
    (∀ e ∈ getSyncRetryDecryptEntries base storage idx newKeys timelineOpen remoteEntries,
      ∀ t ∈ remoteEntries, e.addr ≠ t.addr) ∧
    (∀ (heap : Nat → Bool), ∀ t ∈ remoteEntries,
      markDecrypted heap
        ((getSyncRetryDecryptEntries base storage idx newKeys timelineOpen
            remoteEntries).map Entry.addr) t.addr = heap t.addr) := by
  have ha : ∀ e ∈ getSyncRetryDecryptEntries base storage idx newKeys timelineOpen
      remoteEntries, base ≤ e.addr := by
    intro e he
    unfold getSyncRetryDecryptEntries at he
    by_cases hTL : timelineOpen = true
    · simp only [hTL, if_true] at he
      rcases List.mem_append.mp he with h | h
      · exact entriesForKeys_mem_addr storage idx newKeys base e h
      · simp only [allocFresh] at h
        exact Nat.le_trans (entriesForKeys_fst_le storage idx newKeys base)
          (mem_withFreshAddrs_addr _ _ h)
    · simp only [Bool.not_eq_true] at hTL
      simp only [hTL, Bool.false_eq_true, if_false] at he
      exact entriesForKeys_mem_addr storage idx newKeys base e he
  have hne : ∀ e ∈ getSyncRetryDecryptEntries base storage idx newKeys timelineOpen
      remoteEntries, ∀ t ∈ remoteEntries, e.addr ≠ t.addr := by
    intro e he t ht
    have h1 := ha e he
    have h2 := hB t ht
    exact Nat.ne_of_gt (Nat.lt_of_lt_of_le h2 h1)
  refine ⟨ha, hne, ?_⟩
  intro heap t ht
  unfold markDecrypted
  have hc : ((getSyncRetryDecryptEntries base storage idx newKeys timelineOpen
      remoteEntries).map Entry.addr).contains t.addr = false := by
    rw [contains_eq_false_iff_not_mem]
    intro hm
    obtain ⟨e, he, heq⟩ := List.mem_map.mp hm
    exact hne e he t ht heq
  rw [hc]
  simp

theorem syncRetryEntries_fresh_objects_witness :
    markDecrypted (fun _ => false)
      ((getSyncRetryDecryptEntries 100 [⟨0, "e1", true, some "k1"⟩] idxW ["k1"] true
          [⟨7, "e2", true, some "k1"⟩]).map Entry.addr) 7 = false ∧
    (⟨100, "e1", true, some "k1"⟩ : Entry).addr ≠ (⟨7, "e2", true, some "k1"⟩ : Entry).addr := by
  have h := syncRetryEntries_fresh_objects 100 [⟨0, "e1", true, some "k1"⟩] idxW ["k1"]
    true [⟨7, "e2", true, some "k1"⟩] (by decide)
  exact ⟨h.2.2 (fun _ => false) ⟨7, "e2", true, some "k1"⟩ (by decide),
         h.2.1 ⟨100, "e1", true, some "k1"⟩ (by decide) ⟨7, "e2", true, some "k1"⟩ (by decide)⟩

end Hydrogen
